import Mathlib

/-!
# go-hive: the case service (`case.go`)

A shallow embedding of `CasesServiceOp.Get` and `CasesServiceOp.List` and of the
data they move, with the properties of single-record retrieval and of the
pagination loop.

Modelling conventions

* A Go slice is a `List`; the nil slice and the empty slice are both `[]`.
* A nil-able pointer or interface (`*Case`, `*http.Response`, `error`) is an
  `Option`; `none` is nil.
* Go `int` is taken at 64 bits: a sum is reduced with `wrapInt`.
* `Client` (the transport) is declared outside `case.go`. It is a parameter of
  the model: a page size and the two operations `NewRequest` and `Do`. The
  transport is deterministic, and what it answers to a call may depend on every
  call it received before, so each operation reads the log of earlier calls.
  The log starts empty when `Get` or `List` is entered.
* `APIRoute` is a string constant declared outside `case.go`; it is a parameter.
* The `for` loop of `List` has no bound; the model takes a number of iterations
  it may run (`fuel`) and reports when that number did not suffice.
-/

namespace thehive

/-! ## Data model -/

/-- Entity is a common object representing struct. -/
structure Entity where
  ID : String
  «Type» : String
  deriving DecidableEq, Repr

/-- CustomField is a custom field in the case. -/
structure CustomField where
  String : String
  Order : Int
  deriving DecidableEq, Repr

/-- Case represents TheHive Case. A Go map is the list of its entries; a value
of type `interface{}` is kept as its JSON text. -/
structure Case where
  toEntity : Entity
  ArtifactCount : Int
  CaseID : Int
  CreatedAt : Int
  CreatedBy : String
  CustomFields : List (String × CustomField)
  Description : String
  EndDate : Int
  Flag : Bool
  ID : String
  IOCCount : Int
  ImpactStatus : String
  Metrics : List (String × String)
  Owner : String
  ResolutionStatus : String
  Severity : Int
  SimilarArtifactCount : Int
  SimilarIocCount : Int
  StartDate : Int
  Status : String
  Summary : String
  TLP : Int
  Tags : List String
  Title : String
  UpdatedAt : Int
  UpdatedBy : String
  deriving DecidableEq, Repr

/-! ## Machine integers and formatting -/

/-- Width of the Go type `int`. -/
def intBits : Nat := 64

/-- Two's complement reduction of an integer to the range of Go `int`. -/
def wrapInt (x : Int) : Int :=
  (x + 2 ^ (intBits - 1)) % 2 ^ intBits - 2 ^ (intBits - 1)

/-- Operand of `fmt.Sprintf`. -/
inductive Arg where
  | str (s : String)
  | int (i : Int)
  deriving DecidableEq, Repr

/-- The characters `fmt.Sprintf` writes, for the two verbs `case.go` uses: `%s`
with a string operand writes the string as it is, `%d` with an int operand
writes it in decimal with a leading `-` when negative. Every other character
of the format is copied. -/
def sprintfAux : List Char → List Arg → List Char
  | [], _ => []
  | '%' :: 's' :: fmt, Arg.str s :: args => s.data ++ sprintfAux fmt args
  | '%' :: 'd' :: fmt, Arg.int i :: args => (toString i).data ++ sprintfAux fmt args
  | c :: fmt, args => c :: sprintfAux fmt args

/-- Model of `fmt.Sprintf(format, args...)`. -/
def Sprintf (format : String) (args : List Arg) : String :=
  String.mk (sprintfAux format.data args)

/-! ## Routes -/

/-- Route `caseMain` is used to list and create cases. -/
def caseMain (APIRoute : String) : String := APIRoute ++ "/case"

/-- Route `caseRoute` is used in Sprintf parameter interpolation. -/
def caseRoute (APIRoute : String) : String := caseMain APIRoute ++ "/%s"

/-! ## Transport -/

/-- One call received by the transport. -/
inductive Call (Req : Type) where
  | newRequest (method urlStr : String) (body : Option String)
  | «do» (req : Req)
  deriving DecidableEq, Repr

/-- Number of `Do` calls in a log: the requests executed so far. -/
def executed {Req : Type} : List (Call Req) → Nat
  | [] => 0
  | Call.newRequest _ _ _ :: log => executed log
  | Call.do _ :: log => executed log + 1

/-- The `NewRequest` calls of a log, in call order: method, path, body. -/
def builds {Req : Type} : List (Call Req) → List (String × String × Option String)
  | [] => []
  | Call.newRequest m u b :: log => (m, u, b) :: builds log
  | Call.do _ :: log => builds log

/-- The paths given to `NewRequest`, in call order. -/
def urls {Req : Type} (log : List (Call Req)) : List String :=
  (builds log).map (fun x => x.2.1)

/-- The client the service holds (`c.client`). `NewRequest log method urlStr body`
is the outcome of `c.client.NewRequest(method, urlStr, body)` after the calls of
`log`. `DoCase` and `DoCases` are `c.client.Do(ctx, req, v)` for a destination
`v` of type `*Case` and `*[]Case`: they give what `v` points to afterwards, the
response, and the error. -/
structure Client (Ctx Req Resp Err : Type) where
  PageSize : Int
  NewRequest : List (Call Req) → String → String → Option String → Except Err Req
  DoCase : List (Call Req) → Ctx → Req → Case × Option Resp × Option Err
  DoCases : List (Call Req) → Ctx → Req → List Case × Option Resp × Option Err

/-- The three values a service method returns. -/
structure Ret (α Resp Err : Type) where
  val : α
  resp : Option Resp
  err : Option Err
  deriving DecidableEq, Repr

/-! ## CasesServiceOp -/

section ops

variable {Ctx Req Resp Err : Type}

/-- Get a case from TheHive. The second component is the log of the calls made
to the transport. -/
def CasesServiceOp.Get (c : Client Ctx Req Resp Err) (APIRoute : String) (ctx : Ctx) (id : String) :
    Ret (Option Case) Resp Err × List (Call Req) :=
  let urlStr := Sprintf (caseRoute APIRoute) [Arg.str id]
  let log1 := [Call.newRequest "GET" urlStr none]
  match c.NewRequest [] "GET" urlStr none with
  | Except.error err => (⟨none, none, some err⟩, log1)
  | Except.ok req =>
    match c.DoCase log1 ctx req with
    | (_, resp, some err) => (⟨none, resp, some err⟩, log1 ++ [Call.do req])
    | (hc, resp, none) => (⟨some hc, resp, none⟩, log1 ++ [Call.do req])

/-- What a bounded run of `List` gives: `result` is what `List` returned, or
`none` when the loop was still running after the allowed iterations; `log` is
the calls made to the transport. -/
structure Run (Req Resp Err : Type) where
  result : Option (Ret (List Case) Resp Err)
  log : List (Call Req)
  deriving DecidableEq, Repr

/-- The path of a page request: `fmt.Sprintf("%s?range=%d-%d", caseMain, start,
c.client.PageSize)`. -/
def pagedCases (APIRoute : String) (start PageSize : Int) : String :=
  Sprintf "%s?range=%d-%d" [Arg.str (caseMain APIRoute), Arg.int start, Arg.int PageSize]

/-- The `for` loop of `List`. `cases`, `resp` and `start` are the variables
declared before the loop; `resp` is never assigned in the loop, whose
`resp, err := c.client.Do(...)` declares a new `resp` in the loop body. -/
def ListLoop (c : Client Ctx Req Resp Err) (APIRoute : String) (ctx : Ctx) :
    Nat → List (Call Req) → List Case → Option Resp → Int → Run Req Resp Err
  | 0, log, _, _, _ => ⟨none, log⟩
  | fuel + 1, log, cases, resp, start =>
    let url := pagedCases APIRoute start c.PageSize
    let log1 := log ++ [Call.newRequest "GET" url none]
    match c.NewRequest log "GET" url none with
    | Except.error err => ⟨some ⟨[], none, some err⟩, log1⟩
    | Except.ok req =>
      let log2 := log1 ++ [Call.do req]
      match c.DoCases log1 ctx req with
      | (_, resp1, some err) => ⟨some ⟨[], resp1, some err⟩, log2⟩
      | (hcs, _, none) =>
        if (hcs.length : Int) < c.PageSize then
          ⟨some ⟨cases ++ hcs, resp, none⟩, log2⟩
        else
          ListLoop c APIRoute ctx fuel log2 (cases ++ hcs) resp (wrapInt (start + c.PageSize))

/-- List cases from TheHive with pagination. -/
def CasesServiceOp.List (c : Client Ctx Req Resp Err) (APIRoute : String) (ctx : Ctx) (fuel : Nat) :
    Run Req Resp Err :=
  ListLoop c APIRoute ctx fuel [] [] none 0

end ops

/-! ## Sample transports -/

/-- A case with the given identifier and every other field zero. -/
def mkCase (id : String) : Case :=
  { toEntity := ⟨id, "case"⟩, ArtifactCount := 0, CaseID := 0, CreatedAt := 0, CreatedBy := "",
    CustomFields := [], Description := "", EndDate := 0, Flag := false, ID := id, IOCCount := 0,
    ImpactStatus := "", Metrics := [], Owner := "", ResolutionStatus := "", Severity := 0,
    SimilarArtifactCount := 0, SimilarIocCount := 0, StartDate := 0, Status := "", Summary := "",
    TLP := 0, Tags := [], Title := "", UpdatedAt := 0, UpdatedBy := "" }

/-- A transport that builds every request (the request is its path), answers
the k-th executed request with the k-th page of `pages` and status 200, and an
empty page past the end. -/
def scripted (pageSize : Int) (pages : List (List Case)) : Client Unit String Nat String where
  PageSize := pageSize
  NewRequest := fun _ _ u _ => Except.ok u
  DoCase := fun _ _ u => (mkCase u, some 200, none)
  DoCases := fun log _ _ => (pages.getD (executed log) [], some 200, none)

/-- A transport like `scripted`, except for its request number `K` (counting
from 1): when `failBuild` is set that request cannot be built, otherwise it is
built and its execution fails with status 500. -/
def failingAt (pageSize : Int) (pages : List (List Case)) (K : Nat) (failBuild : Bool) :
    Client Unit String Nat String where
  PageSize := pageSize
  NewRequest := fun log _ u _ =>
    if failBuild && executed log + 1 == K then Except.error "parse error" else Except.ok u
  DoCase := fun _ _ u => (mkCase u, some 200, none)
  DoCases := fun log _ _ =>
    if executed log + 1 == K then ([], some 500, some "server error")
    else (pages.getD (executed log) [], some 200, none)

/-- A transport for `Get`: `build` is what `NewRequest` gives and `reply` what
`Do` gives. -/
def getClient (build : Except String String) (reply : Case × Option Nat × Option String) :
    Client Unit String Nat String where
  PageSize := 100
  NewRequest := fun _ _ _ _ => build
  DoCase := fun _ _ _ => reply
  DoCases := fun _ _ _ => ([], some 200, none)

/-! ## Logs -/

section lemmas

variable {Ctx Req Resp Err : Type}

theorem executed_append (l₁ l₂ : List (Call Req)) :
    executed (l₁ ++ l₂) = executed l₁ + executed l₂ := by
  induction l₁ with
  | nil => simp [executed]
  | cons a l ih =>
    cases a with
    | newRequest m u b => simpa [executed] using ih
    | «do» r => simp [executed, ih]; omega

theorem builds_append (l₁ l₂ : List (Call Req)) :
    builds (l₁ ++ l₂) = builds l₁ ++ builds l₂ := by
  induction l₁ with
  | nil => simp [builds]
  | cons a l ih =>
    cases a with
    | newRequest m u b => simpa [builds] using ih
    | «do» r => simpa [builds] using ih

/-! ## Machine integers -/

theorem wrapInt_eq (x : Int) :
    wrapInt x = (x + 9223372036854775808) % 18446744073709551616 - 9223372036854775808 := by
  simp [wrapInt, intBits]

theorem wrapInt_of_inRange (x : Int) (h₁ : -9223372036854775808 ≤ x)
    (h₂ : x < 9223372036854775808) : wrapInt x = x := by
  rw [wrapInt_eq]; omega

theorem wrapInt_add_wrapInt (x y : Int) : wrapInt (wrapInt x + y) = wrapInt (x + y) := by
  simp only [wrapInt_eq]; omega

theorem wrapInt_zero : wrapInt 0 = 0 := by
  rw [wrapInt_eq]; omega

/-! ## Formatting -/

/-- A stretch of the format without `%` is copied. -/
theorem sprintfAux_copy (l rest : List Char) (args : List Arg) (h : '%' ∉ l) :
    sprintfAux (l ++ rest) args = l ++ sprintfAux rest args := by
  induction l with
  | nil => rfl
  | cons ch l ih =>
    have hc : ch ≠ '%' := fun h' => h (by simp [h'])
    have hl : '%' ∉ l := fun h' => h (by simp [h'])
    rw [List.cons_append, sprintfAux]
    · rw [ih hl]; rfl
    · intro fmt s args' h1 _ _
      exact hc h1
    · intro fmt s args' h1 _ _
      exact hc h1

/-- The path of a page request, written out. -/
theorem pagedCases_eq (A : String) (start PageSize : Int) :
    pagedCases A start PageSize
      = A ++ "/case" ++ "?range=" ++ toString start ++ "-" ++ toString PageSize := by
  apply String.ext
  simp [pagedCases, Sprintf, sprintfAux, caseMain]

/-- The path of a single case, written out, for a route prefix without `%`. -/
theorem Sprintf_caseRoute (A id : String) (hA : '%' ∉ A.data) :
    Sprintf (caseRoute A) [Arg.str id] = A ++ "/case/" ++ id := by
  apply String.ext
  simp only [Sprintf, caseRoute, caseMain, String.data_append]
  rw [List.append_assoc, sprintfAux_copy _ _ _ hA]
  simp [sprintfAux]

/-! ## One iteration of the loop -/

theorem ListLoop_zero (c : Client Ctx Req Resp Err) (A : String) (ctx : Ctx)
    (log : List (Call Req)) (cases : List Case) (resp : Option Resp) (start : Int) :
    ListLoop c A ctx 0 log cases resp start = ⟨none, log⟩ := rfl

theorem ListLoop_build_error (c : Client Ctx Req Resp Err) (A : String) (ctx : Ctx) (fuel : Nat)
    (log : List (Call Req)) (cases : List Case) (resp : Option Resp) (start : Int) (e : Err)
    (hb : c.NewRequest log "GET" (pagedCases A start c.PageSize) none = Except.error e) :
    ListLoop c A ctx (fuel + 1) log cases resp start =
      ⟨some ⟨[], none, some e⟩,
        log ++ [Call.newRequest "GET" (pagedCases A start c.PageSize) none]⟩ := by
  simp only [ListLoop, hb]

theorem ListLoop_do_error (c : Client Ctx Req Resp Err) (A : String) (ctx : Ctx) (fuel : Nat)
    (log : List (Call Req)) (cases : List Case) (resp : Option Resp) (start : Int) (req : Req)
    (hcs : List Case) (r : Option Resp) (e : Err)
    (hb : c.NewRequest log "GET" (pagedCases A start c.PageSize) none = Except.ok req)
    (hd : c.DoCases (log ++ [Call.newRequest "GET" (pagedCases A start c.PageSize) none]) ctx req
      = (hcs, r, some e)) :
    ListLoop c A ctx (fuel + 1) log cases resp start =
      ⟨some ⟨[], r, some e⟩,
        log ++ [Call.newRequest "GET" (pagedCases A start c.PageSize) none] ++ [Call.do req]⟩ := by
  simp only [ListLoop, hb, hd]

theorem ListLoop_short (c : Client Ctx Req Resp Err) (A : String) (ctx : Ctx) (fuel : Nat)
    (log : List (Call Req)) (cases : List Case) (resp : Option Resp) (start : Int) (req : Req)
    (hcs : List Case) (r : Option Resp)
    (hb : c.NewRequest log "GET" (pagedCases A start c.PageSize) none = Except.ok req)
    (hd : c.DoCases (log ++ [Call.newRequest "GET" (pagedCases A start c.PageSize) none]) ctx req
      = (hcs, r, none))
    (hlen : (hcs.length : Int) < c.PageSize) :
    ListLoop c A ctx (fuel + 1) log cases resp start =
      ⟨some ⟨cases ++ hcs, resp, none⟩,
        log ++ [Call.newRequest "GET" (pagedCases A start c.PageSize) none] ++ [Call.do req]⟩ := by
  simp only [ListLoop, hb, hd, if_pos hlen]

theorem ListLoop_full (c : Client Ctx Req Resp Err) (A : String) (ctx : Ctx) (fuel : Nat)
    (log : List (Call Req)) (cases : List Case) (resp : Option Resp) (start : Int) (req : Req)
    (hcs : List Case) (r : Option Resp)
    (hb : c.NewRequest log "GET" (pagedCases A start c.PageSize) none = Except.ok req)
    (hd : c.DoCases (log ++ [Call.newRequest "GET" (pagedCases A start c.PageSize) none]) ctx req
      = (hcs, r, none))
    (hlen : ¬ (hcs.length : Int) < c.PageSize) :
    ListLoop c A ctx (fuel + 1) log cases resp start =
      ListLoop c A ctx fuel
        (log ++ [Call.newRequest "GET" (pagedCases A start c.PageSize) none] ++ [Call.do req])
        (cases ++ hcs) resp (wrapInt (start + c.PageSize)) := by
  simp only [ListLoop, hb, hd, if_neg hlen]

/-- The four ways an iteration of the loop ends. -/
theorem ListLoop_succ_cases (c : Client Ctx Req Resp Err) (A : String) (ctx : Ctx) (fuel : Nat)
    (log : List (Call Req)) (cases : List Case) (resp : Option Resp) (start : Int) :
    (∃ e, ListLoop c A ctx (fuel + 1) log cases resp start =
      ⟨some ⟨[], none, some e⟩,
        log ++ [Call.newRequest "GET" (pagedCases A start c.PageSize) none]⟩) ∨
    (∃ req r e, ListLoop c A ctx (fuel + 1) log cases resp start =
      ⟨some ⟨[], r, some e⟩,
        log ++ [Call.newRequest "GET" (pagedCases A start c.PageSize) none] ++ [Call.do req]⟩) ∨
    (∃ req hcs, ListLoop c A ctx (fuel + 1) log cases resp start =
      ⟨some ⟨cases ++ hcs, resp, none⟩,
        log ++ [Call.newRequest "GET" (pagedCases A start c.PageSize) none] ++ [Call.do req]⟩) ∨
    (∃ req hcs, ListLoop c A ctx (fuel + 1) log cases resp start =
      ListLoop c A ctx fuel
        (log ++ [Call.newRequest "GET" (pagedCases A start c.PageSize) none] ++ [Call.do req])
        (cases ++ hcs) resp (wrapInt (start + c.PageSize))) := by
  cases hreq : c.NewRequest log "GET" (pagedCases A start c.PageSize) none with
  | error e => exact Or.inl ⟨e, ListLoop_build_error c A ctx fuel log cases resp start e hreq⟩
  | ok req =>
    rcases hdo : c.DoCases (log ++ [Call.newRequest "GET" (pagedCases A start c.PageSize) none])
      ctx req with ⟨hcs, r, err⟩
    cases err with
    | some e =>
      exact Or.inr (Or.inl ⟨req, r, e,
        ListLoop_do_error c A ctx fuel log cases resp start req hcs r e hreq hdo⟩)
    | none =>
      by_cases hlen : (hcs.length : Int) < c.PageSize
      · exact Or.inr (Or.inr (Or.inl ⟨req, hcs,
          ListLoop_short c A ctx fuel log cases resp start req hcs r hreq hdo hlen⟩))
      · exact Or.inr (Or.inr (Or.inr ⟨req, hcs,
          ListLoop_full c A ctx fuel log cases resp start req hcs r hreq hdo hlen⟩))

/-- Every request the loop builds is a GET with no body; the request number
`i` after entering with cursor `start` has the path made of `start` advanced `i`
times by the page size, and of the page size. -/
theorem builds_ListLoop (c : Client Ctx Req Resp Err) (A : String) (ctx : Ctx) :
    ∀ (fuel : Nat) (log : List (Call Req)) (cases : List Case) (resp : Option Resp)
      (start : Int), wrapInt start = start →
      ∃ k, builds (ListLoop c A ctx fuel log cases resp start).log =
        builds log ++ (List.range k).map
          (fun (i : Nat) =>
            ("GET", pagedCases A (wrapInt (start + (i : Int) * c.PageSize)) c.PageSize, none)) := by
  intro fuel
  induction fuel with
  | zero =>
    intro log cases resp start _
    exact ⟨0, by simp [ListLoop_zero]⟩
  | succ fuel ih =>
    intro log cases resp start hs
    rcases ListLoop_succ_cases c A ctx fuel log cases resp start with
      ⟨e, h⟩ | ⟨req, r, e, h⟩ | ⟨req, hcs, h⟩ | ⟨req, hcs, h⟩
    · exact ⟨1, by simp [h, builds_append, builds, hs, List.range_succ]⟩
    · exact ⟨1, by simp [h, builds_append, builds, hs, List.range_succ]⟩
    · exact ⟨1, by simp [h, builds_append, builds, hs, List.range_succ]⟩
    · obtain ⟨k, hk⟩ := ih
        (log ++ [Call.newRequest "GET" (pagedCases A start c.PageSize) none] ++ [Call.do req])
        (cases ++ hcs) resp (wrapInt (start + c.PageSize))
        (by simp only [wrapInt_eq]; omega)
      refine ⟨k + 1, ?_⟩
      rw [h, hk, List.range_succ_eq_map]
      simp only [builds_append, builds, List.map_cons, List.map_map, List.append_assoc,
        List.append_nil, List.cons_append, List.nil_append, Nat.cast_zero, zero_mul, add_zero, hs]
      congr 2
      apply List.map_congr_left
      intro i _
      simp only [Function.comp, Nat.succ_eq_add_one, Nat.cast_add, Nat.cast_one,
        wrapInt_add_wrapInt]
      congr 3
      ring_nf

/-- A run that ends without error returns the `resp` declared before the
loop, whatever the transport answered. -/
theorem ListLoop_resp (c : Client Ctx Req Resp Err) (A : String) (ctx : Ctx) :
    ∀ (fuel : Nat) (log : List (Call Req)) (cases : List Case) (resp : Option Resp)
      (start : Int) (r : Ret (List Case) Resp Err),
      (ListLoop c A ctx fuel log cases resp start).result = some r → r.err = none →
      r.resp = resp := by
  intro fuel
  induction fuel with
  | zero =>
    intro log cases resp start r h
    simp [ListLoop_zero] at h
  | succ fuel ih =>
    intro log cases resp start r hr herr
    rcases ListLoop_succ_cases c A ctx fuel log cases resp start with
      ⟨e, h⟩ | ⟨req, r', e, h⟩ | ⟨req, hcs, h⟩ | ⟨req, hcs, h⟩
    · rw [h] at hr
      simp at hr
      subst hr
      simp at herr
    · rw [h] at hr
      simp at hr
      subst hr
      simp at herr
    · rw [h] at hr
      simp at hr
      subst hr
      rfl
    · rw [h] at hr
      exact ih _ _ _ _ r hr herr

/-! ## Runs of non-terminal pages -/

/-- As long as the requests numbered below `n` are built, executed without
error and answered with pages that are not short, the loop runs through them:
`m` iterations later it is at the top of the loop again, with the pages
appended, one more executed request per iteration, and the `resp` declared
before the loop untouched. `Q` carries what is known of each page. -/
theorem ListLoop_through (c : Client Ctx Req Resp Err) (A : String) (ctx : Ctx)
    (Q : Nat → List Case → Prop) (n : Nat)
    (hb : ∀ log m u b, executed log < n → ∃ req, c.NewRequest log m u b = Except.ok req)
    (hd : ∀ log req, executed log < n → ∃ hcs resp, c.DoCases log ctx req = (hcs, resp, none) ∧
      ¬ (hcs.length : Int) < c.PageSize ∧ Q (executed log) hcs) :
    ∀ (m : Nat) (log : List (Call Req)) (cases : List Case) (resp : Option Resp) (start : Int),
      executed log + m ≤ n →
      ∃ (log' : List (Call Req)) (pgs : List (List Case)) (start' : Int),
        executed log' = executed log + m ∧ pgs.length = m ∧
        (∀ i p, pgs[i]? = some p → Q (executed log + i) p) ∧
        ∀ fuel, ListLoop c A ctx (m + fuel) log cases resp start =
          ListLoop c A ctx fuel log' (cases ++ pgs.flatten) resp start' := by
  intro m
  induction m with
  | zero =>
    intro log cases resp start _
    exact ⟨log, [], start, by simp, rfl, by simp, fun fuel => by simp⟩
  | succ m ih =>
    intro log cases resp start hle
    obtain ⟨req, hreq⟩ := hb log "GET" (pagedCases A start c.PageSize) none (by omega)
    have he1 : executed (log ++ [Call.newRequest "GET" (pagedCases A start c.PageSize) none])
        = executed log := by
      simp [executed_append, executed]
    obtain ⟨hcs, r, hdo, hfull, hQ⟩ :=
      hd (log ++ [Call.newRequest "GET" (pagedCases A start c.PageSize) none]) req (by omega)
    have he2 : executed (log ++ [Call.newRequest "GET" (pagedCases A start c.PageSize) none]
        ++ [Call.do req]) = executed log + 1 := by
      simp [executed_append, executed]
    obtain ⟨log', pgs, start', he, hlen, hQs, hrun⟩ :=
      ih (log ++ [Call.newRequest "GET" (pagedCases A start c.PageSize) none] ++ [Call.do req])
        (cases ++ hcs) resp (wrapInt (start + c.PageSize)) (by omega)
    refine ⟨log', hcs :: pgs, start', by omega, by simp [hlen], ?_, ?_⟩
    · intro i p hi
      cases i with
      | zero =>
        simp at hi
        subst hi
        rw [he1] at hQ
        simpa using hQ
      | succ i =>
        simp at hi
        have h := hQs i p hi
        rw [he2] at h
        have hidx : executed log + (i + 1) = executed log + 1 + i := by omega
        rw [hidx]
        exact h
    · intro fuel
      have hf : m + 1 + fuel = (m + fuel) + 1 := by omega
      rw [hf, ListLoop_full c A ctx (m + fuel) log cases resp start req hcs r hreq hdo hfull,
        hrun fuel]
      simp [List.append_assoc]

/-- A list with the length and the entries of another is that list. -/
theorem pages_eq_of_getD (pgs l : List (List Case)) (hlen : pgs.length ≤ l.length)
    (h : ∀ i p, pgs[i]? = some p → p = l.getD i []) : pgs = l.take pgs.length := by
  apply List.ext_getElem
  · simp [List.length_take]; omega
  · intro k h₁ h₂
    have hk := h k pgs[k] (by simp [h₁])
    rw [hk]
    have hkl : k < l.length := by omega
    simp [List.getElem_take, hkl]

end lemmas


/-! ## Enumeration -/

section enumeration

variable {Ctx Req Resp Err : Type}

/-- C1. When every request is built and executed without error, the k-th
executed request is answered with the k-th page of `init ++ [last]`, every page
of `init` holds exactly `PageSize` records and `last` holds fewer (which makes
`PageSize` positive), `List` returns once it may run as many iterations as there
are pages: the error is nil and the collection is the pages' records in page
order, so its length is the sum of the page lengths. -/
theorem List_returns_all_pages (c : Client Ctx Req Resp Err) (A : String) (ctx : Ctx)
    (init : List (List Case)) (last : List Case)
    (hfull : ∀ p ∈ init, (p.length : Int) = c.PageSize)
    (hlast : (last.length : Int) < c.PageSize)
    (hb : ∀ log m u b, ∃ req, c.NewRequest log m u b = Except.ok req)
    (hd : ∀ log req, executed log ≤ init.length →
      ∃ resp, c.DoCases log ctx req = ((init ++ [last]).getD (executed log) [], resp, none))
    (fuel : Nat) (hfuel : init.length + 1 ≤ fuel) :
    ∃ r log, CasesServiceOp.List c A ctx fuel = ⟨some r, log⟩ ∧ r.err = none ∧
      r.val = (init ++ [last]).flatten ∧
      r.val.length = ((init ++ [last]).map List.length).sum := by
  have hget : ∀ k, k < init.length → (init ++ [last]).getD k [] ∈ init := by
    intro k hk
    have : (init ++ [last]).getD k [] = init[k] := by
      simp [List.getElem?_append_left hk, hk]
    rw [this]
    exact List.getElem_mem hk
  obtain ⟨log', pgs, start', he, hlen, hQ, hrun⟩ :=
    ListLoop_through c A ctx (fun k p => p = (init ++ [last]).getD k []) init.length
      (fun log m u b _ => hb log m u b)
      (fun log req hlt => by
        obtain ⟨resp, hresp⟩ := hd log req (by omega)
        refine ⟨_, resp, hresp, ?_, rfl⟩
        have := hfull _ (hget _ hlt)
        omega)
      init.length [] [] none 0 (by simp [executed])
  have hpgs : pgs = init := by
    have h := pages_eq_of_getD pgs (init ++ [last]) (by simp [hlen])
      (fun i p hi => by simpa [executed] using hQ i p hi)
    rw [hlen] at h
    simpa using h
  subst hpgs
  obtain ⟨k, rfl⟩ : ∃ k, fuel = pgs.length + (k + 1) := ⟨fuel - pgs.length - 1, by omega⟩
  obtain ⟨req, hreq⟩ := hb log' "GET" (pagedCases A start' c.PageSize) none
  have he1 : executed (log' ++ [Call.newRequest "GET" (pagedCases A start' c.PageSize) none])
      = pgs.length := by
    simp [executed_append, executed, he]
  obtain ⟨resp, hdo⟩ :=
    hd (log' ++ [Call.newRequest "GET" (pagedCases A start' c.PageSize) none]) req (by omega)
  rw [he1] at hdo
  have hl : (pgs ++ [last]).getD pgs.length [] = last := by simp
  rw [hl] at hdo
  refine ⟨⟨[] ++ pgs.flatten ++ last, none, none⟩,
    log' ++ [Call.newRequest "GET" (pagedCases A start' c.PageSize) none] ++ [Call.do req],
    ?_, rfl, by simp, by simp⟩
  unfold CasesServiceOp.List
  rw [hrun (k + 1), ListLoop_short c A ctx k log' _ none start' req last resp hreq hdo hlast]

/-- C7. When every request is built and executed without error and the k-th
executed request (counting from 0) is answered with `page k`, where the pages
before `page m` hold at least `PageSize` records and `page m` holds fewer: after
`m` iterations or fewer `List` has not returned, so no page with `PageSize`
records or more ends the enumeration; with `m + 1` iterations or more it has
returned pages `0` to `m` with a nil error after exactly `m + 1` executed
requests. -/
theorem List_stops_at_first_short_page (c : Client Ctx Req Resp Err) (A : String) (ctx : Ctx)
    (page : Nat → List Case) (m : Nat)
    (hb : ∀ log me u b, ∃ req, c.NewRequest log me u b = Except.ok req)
    (hd : ∀ log req, ∃ resp, c.DoCases log ctx req = (page (executed log), resp, none))
    (hfull : ∀ k, k < m → c.PageSize ≤ ((page k).length : Int))
    (hshort : ((page m).length : Int) < c.PageSize) :
    (∀ fuel, fuel ≤ m → (CasesServiceOp.List c A ctx fuel).result = none ∧
      executed (CasesServiceOp.List c A ctx fuel).log = fuel) ∧
    (∀ fuel, m + 1 ≤ fuel → ∃ r log, CasesServiceOp.List c A ctx fuel = ⟨some r, log⟩ ∧
      r.err = none ∧ r.val = ((List.range (m + 1)).map page).flatten ∧ executed log = m + 1) := by
  have hpre : ∀ j, j ≤ m → ∃ (log' : List (Call Req)) (start' : Int), executed log' = j ∧
      ∀ fuel, ListLoop c A ctx (j + fuel) [] [] none 0 =
        ListLoop c A ctx fuel log' ([] ++ ((List.range j).map page).flatten) none start' := by
    intro j hj
    obtain ⟨log', pgs, start', he, hlen, hQ, hrun⟩ :=
      ListLoop_through c A ctx (fun k p => p = page k) m
        (fun log me u b _ => hb log me u b)
        (fun log req hlt => by
          obtain ⟨resp, hresp⟩ := hd log req
          refine ⟨_, resp, hresp, ?_, rfl⟩
          have := hfull _ hlt
          omega)
        j [] [] none 0 (by simpa [executed] using hj)
    have hpgs : pgs = (List.range j).map page := by
      apply List.ext_getElem
      · simp [hlen]
      · intro k h₁ h₂
        have := hQ k pgs[k] (by simp [h₁])
        simpa [executed] using this
    subst hpgs
    exact ⟨log', start', by simpa [executed] using he, hrun⟩
  constructor
  · intro fuel hfuel
    obtain ⟨log', start', he, hrun⟩ := hpre fuel hfuel
    have h := hrun 0
    simp only [Nat.add_zero] at h
    unfold CasesServiceOp.List
    rw [h, ListLoop_zero]
    exact ⟨rfl, he⟩
  · intro fuel hfuel
    obtain ⟨log', start', he, hrun⟩ := hpre m (Nat.le_refl m)
    obtain ⟨k, rfl⟩ : ∃ k, fuel = m + (k + 1) := ⟨fuel - m - 1, by omega⟩
    obtain ⟨req, hreq⟩ := hb log' "GET" (pagedCases A start' c.PageSize) none
    have he1 : executed (log' ++ [Call.newRequest "GET" (pagedCases A start' c.PageSize) none])
        = m := by
      simp [executed_append, executed, he]
    obtain ⟨resp, hdo⟩ :=
      hd (log' ++ [Call.newRequest "GET" (pagedCases A start' c.PageSize) none]) req
    rw [he1] at hdo
    refine ⟨⟨[] ++ ((List.range m).map page).flatten ++ page m, none, none⟩,
      log' ++ [Call.newRequest "GET" (pagedCases A start' c.PageSize) none] ++ [Call.do req],
      ?_, rfl, ?_, ?_⟩
    · unfold CasesServiceOp.List
      rw [hrun (k + 1), ListLoop_short c A ctx k log' _ none start' req (page m) resp hreq hdo hshort]
    · simp [List.range_succ]
    · simp [executed_append, executed, he]

/-- With a page size of zero or less no page is short: as long as requests
are built and executed without error the loop goes on. -/
theorem ListLoop_nonpositive (c : Client Ctx Req Resp Err) (A : String) (ctx : Ctx)
    (hps : c.PageSize ≤ 0)
    (hb : ∀ log m u b, ∃ req, c.NewRequest log m u b = Except.ok req)
    (hd : ∀ log req, ∃ hcs resp, c.DoCases log ctx req = (hcs, resp, none)) (fuel : Nat) :
    (ListLoop c A ctx fuel [] [] none 0).result = none ∧
      executed (ListLoop c A ctx fuel [] [] none 0).log = fuel := by
  obtain ⟨log', pgs, start', he, -, -, hrun⟩ :=
    ListLoop_through c A ctx (fun _ _ => True) fuel
      (fun log m u b _ => hb log m u b)
      (fun log req _ => by
        obtain ⟨hcs, resp, hresp⟩ := hd log req
        refine ⟨hcs, resp, hresp, ?_, trivial⟩
        have : (0 : Int) ≤ (hcs.length : Int) := Int.natCast_nonneg _
        omega)
      fuel [] [] none 0 (by simp [executed])
  have h := hrun 0
  simp only [Nat.add_zero] at h
  rw [h, ListLoop_zero]
  exact ⟨rfl, by simpa [executed] using he⟩

/-- C2. All-or-nothing. When the first `n` page requests are built and executed
without error and answered with pages of at least `PageSize` records, and request
`n + 1` fails, either when it is built or when it is executed or decoded, `List`
returns a non-nil error with a nil collection: nothing of the `n` pages read
before is returned. -/
theorem List_all_or_nothing (c : Client Ctx Req Resp Err) (A : String) (ctx : Ctx) (n : Nat)
    (hb : ∀ log m u b, executed log < n → ∃ req, c.NewRequest log m u b = Except.ok req)
    (hd : ∀ log req, executed log < n → ∃ hcs resp, c.DoCases log ctx req = (hcs, resp, none) ∧
      c.PageSize ≤ (hcs.length : Int))
    (hfail : ∀ log m u b, executed log = n →
      (∃ e, c.NewRequest log m u b = Except.error e) ∨
      (∃ req, c.NewRequest log m u b = Except.ok req ∧
        ∃ hcs resp e, c.DoCases (log ++ [Call.newRequest m u b]) ctx req = (hcs, resp, some e)))
    (fuel : Nat) (hfuel : n + 1 ≤ fuel) :
    ∃ r log, CasesServiceOp.List c A ctx fuel = ⟨some r, log⟩ ∧ r.err ≠ none ∧ r.val = [] := by
  obtain ⟨log', pgs, start', he, -, -, hrun⟩ :=
    ListLoop_through c A ctx (fun _ _ => True) n hb
      (fun log req hlt => by
        obtain ⟨hcs, resp, hresp, hlen⟩ := hd log req hlt
        exact ⟨hcs, resp, hresp, by omega, trivial⟩)
      n [] [] none 0 (by simp [executed])
  obtain ⟨k, rfl⟩ : ∃ k, fuel = n + (k + 1) := ⟨fuel - n - 1, by omega⟩
  have he' : executed log' = n := by simpa [executed] using he
  unfold CasesServiceOp.List
  rw [hrun (k + 1)]
  rcases hfail log' "GET" (pagedCases A start' c.PageSize) none he' with
    ⟨e, hreq⟩ | ⟨req, hreq, hcs, resp, e, hdo⟩
  · rw [ListLoop_build_error c A ctx k log' _ none start' e hreq]
    exact ⟨_, _, rfl, by simp, rfl⟩
  · rw [ListLoop_do_error c A ctx k log' _ none start' req hcs resp e hreq hdo]
    exact ⟨_, _, rfl, by simp, rfl⟩

/-- C8. Error propagation without retry. Let the first `n` page requests be
built and executed without error and answered with pages of at least `PageSize`
records. If request `n + 1` is built and its execution or decoding fails with
error `e` and response `r`, `List` returns the nil collection, `r` and `e`, with
`n + 1` requests executed in all. If building request `n + 1` fails with `e`,
`List` returns the nil collection, a nil response and `e`, with `n` requests
executed. -/
theorem List_error_propagation (c : Client Ctx Req Resp Err) (A : String) (ctx : Ctx) (n : Nat)
    (hb : ∀ log m u b, executed log < n → ∃ req, c.NewRequest log m u b = Except.ok req)
    (hd : ∀ log req, executed log < n → ∃ hcs resp, c.DoCases log ctx req = (hcs, resp, none) ∧
      c.PageSize ≤ (hcs.length : Int))
    (fuel : Nat) (hfuel : n + 1 ≤ fuel) :
    (∀ (e : Err) (r : Option Resp),
      (∀ log m u b, executed log = n → ∃ req, c.NewRequest log m u b = Except.ok req) →
      (∀ log req, executed log = n → ∃ hcs, c.DoCases log ctx req = (hcs, r, some e)) →
      ∃ log, CasesServiceOp.List c A ctx fuel = ⟨some ⟨[], r, some e⟩, log⟩ ∧
        executed log = n + 1) ∧
    (∀ e : Err,
      (∀ log m u b, executed log = n → c.NewRequest log m u b = Except.error e) →
      ∃ log, CasesServiceOp.List c A ctx fuel = ⟨some ⟨[], none, some e⟩, log⟩ ∧
        executed log = n) := by
  obtain ⟨log', pgs, start', he, -, -, hrun⟩ :=
    ListLoop_through c A ctx (fun _ _ => True) n hb
      (fun log req hlt => by
        obtain ⟨hcs, resp, hresp, hlen⟩ := hd log req hlt
        exact ⟨hcs, resp, hresp, by omega, trivial⟩)
      n [] [] none 0 (by simp [executed])
  obtain ⟨k, rfl⟩ : ∃ k, fuel = n + (k + 1) := ⟨fuel - n - 1, by omega⟩
  have he' : executed log' = n := by simpa [executed] using he
  have he1 : executed (log' ++ [Call.newRequest "GET" (pagedCases A start' c.PageSize) none])
      = n := by
    simp [executed_append, executed, he']
  constructor
  · intro e r hbK hdK
    obtain ⟨req, hreq⟩ := hbK log' "GET" (pagedCases A start' c.PageSize) none he'
    obtain ⟨hcs, hdo⟩ :=
      hdK (log' ++ [Call.newRequest "GET" (pagedCases A start' c.PageSize) none]) req he1
    refine ⟨log' ++ [Call.newRequest "GET" (pagedCases A start' c.PageSize) none]
      ++ [Call.do req], ?_, ?_⟩
    · unfold CasesServiceOp.List
      rw [hrun (k + 1), ListLoop_do_error c A ctx k log' _ none start' req hcs r e hreq hdo]
    · simp [executed_append, executed, he']
  · intro e hbK
    have hreq := hbK log' "GET" (pagedCases A start' c.PageSize) none he'
    refine ⟨log' ++ [Call.newRequest "GET" (pagedCases A start' c.PageSize) none], ?_, he1⟩
    unfold CasesServiceOp.List
    rw [hrun (k + 1), ListLoop_build_error c A ctx k log' _ none start' e hreq]

/-- C5, as amended. With a page size of zero or less and a transport whose
requests are all built and executed without error, the termination test is
false on every page: whatever number of iterations `List` may run, it has not
returned after them and has executed one request in each. -/
theorem List_nonpositive_pageSize_keeps_requesting (c : Client Ctx Req Resp Err) (A : String)
    (ctx : Ctx) (hps : c.PageSize ≤ 0)
    (hb : ∀ log m u b, ∃ req, c.NewRequest log m u b = Except.ok req)
    (hd : ∀ log req, ∃ hcs resp, c.DoCases log ctx req = (hcs, resp, none)) (fuel : Nat) :
    (CasesServiceOp.List c A ctx fuel).result = none ∧
      executed (CasesServiceOp.List c A ctx fuel).log = fuel :=
  ListLoop_nonpositive c A ctx hps hb hd fuel

/-- The requests `List` builds, in order: request `i` (counting from 0) is a
GET with no body for the path made of the cursor `i * PageSize`, reduced to the
range of `int`, and of the page size. -/
theorem builds_List (c : Client Ctx Req Resp Err) (A : String) (ctx : Ctx) (fuel : Nat) :
    ∃ k, builds (CasesServiceOp.List c A ctx fuel).log = (List.range k).map
      (fun (i : Nat) =>
        ("GET", pagedCases A (wrapInt ((i : Int) * c.PageSize)) c.PageSize, none)) := by
  obtain ⟨k, hk⟩ := builds_ListLoop c A ctx fuel [] [] none 0 wrapInt_zero
  refine ⟨k, ?_⟩
  unfold CasesServiceOp.List
  rw [hk]
  simp [builds]

/-- C6, as amended. Offset progression: when `List` issues a request number
`N` (counting from 1) and `(N - 1) * PageSize` is in the range of a 64-bit
`int`, the start offset written into the path of that request is
`(N - 1) * PageSize`, whatever the pages held. -/
theorem List_offset_progression (c : Client Ctx Req Resp Err) (A : String) (ctx : Ctx)
    (fuel N : Nat) (u : String) (hN : 1 ≤ N)
    (hu : (urls (CasesServiceOp.List c A ctx fuel).log)[N - 1]? = some u)
    (hlo : -(2 ^ 63 : Int) ≤ ((N : Int) - 1) * c.PageSize)
    (hhi : ((N : Int) - 1) * c.PageSize < 2 ^ 63) :
    u = pagedCases A (((N : Int) - 1) * c.PageSize) c.PageSize := by
  obtain ⟨k, hk⟩ := builds_List c A ctx fuel
  rw [urls, hk, List.map_map, List.getElem?_map] at hu
  cases hr : (List.range k)[N - 1]? with
  | none => simp [hr] at hu
  | some i =>
    have hi : i = N - 1 := by
      have := List.getElem?_eq_some.1 hr
      obtain ⟨hlt, hget⟩ := this
      simp at hget
      omega
    rw [hr] at hu
    simp only [Option.map_some', Function.comp, Option.some.injEq] at hu
    have hcast : ((i : Nat) : Int) = (N : Int) - 1 := by
      rw [hi]; omega
    rw [hcast, wrapInt_of_inRange _ (by simpa using hlo) (by simpa using hhi)] at hu
    exact hu.symm

/-- Every request `List` builds is a GET with no body; the path of request
`N` (counting from 0) is `caseMain`, then `?range=`, then the cursor
`N * PageSize` reduced to the range of `int`, then `-`, then the page size. -/
theorem List_request_shape (c : Client Ctx Req Resp Err) (A : String) (ctx : Ctx)
    (fuel N : Nat) (m u : String) (b : Option String)
    (h : (builds (CasesServiceOp.List c A ctx fuel).log)[N]? = some (m, u, b)) :
    m = "GET" ∧ b = none ∧
      u = A ++ "/case" ++ "?range=" ++ toString (wrapInt ((N : Int) * c.PageSize)) ++ "-"
        ++ toString c.PageSize := by
  obtain ⟨k, hk⟩ := builds_List c A ctx fuel
  rw [hk, List.getElem?_map] at h
  cases hr : (List.range k)[N]? with
  | none => simp [hr] at h
  | some i =>
    have hi : i = N := by
      obtain ⟨hlt, hget⟩ := List.getElem?_eq_some.1 hr
      simp at hget
      omega
    subst hi
    rw [hr] at h
    simp only [Option.map_some', Option.some.injEq, Prod.mk.injEq] at h
    obtain ⟨h₁, h₂, h₃⟩ := h
    exact ⟨h₁.symm, h₃.symm, by rw [← h₂, pagedCases_eq]⟩

/-- When `List` returns with a nil error, the response it returns is nil. -/
theorem List_success_returns_nil_response (c : Client Ctx Req Resp Err) (A : String) (ctx : Ctx)
    (fuel : Nat) (r : Ret (List Case) Resp Err)
    (h : (CasesServiceOp.List c A ctx fuel).result = some r) (herr : r.err = none) :
    r.resp = none :=
  ListLoop_resp c A ctx fuel [] [] none 0 r h herr

end enumeration

/-! ## Single-record retrieval -/

section retrieval

variable {Ctx Req Resp Err : Type}

/-- The three ways `Get` ends. -/
theorem Get_cases (c : Client Ctx Req Resp Err) (A : String) (ctx : Ctx) (id : String) :
    (∃ e, c.NewRequest [] "GET" (Sprintf (caseRoute A) [Arg.str id]) none = Except.error e ∧
      CasesServiceOp.Get c A ctx id = (⟨none, none, some e⟩,
        [Call.newRequest "GET" (Sprintf (caseRoute A) [Arg.str id]) none])) ∨
    (∃ req hc r e,
      c.NewRequest [] "GET" (Sprintf (caseRoute A) [Arg.str id]) none = Except.ok req ∧
      c.DoCase [Call.newRequest "GET" (Sprintf (caseRoute A) [Arg.str id]) none] ctx req
        = (hc, r, some e) ∧
      CasesServiceOp.Get c A ctx id = (⟨none, r, some e⟩,
        [Call.newRequest "GET" (Sprintf (caseRoute A) [Arg.str id]) none, Call.do req])) ∨
    (∃ req hc r,
      c.NewRequest [] "GET" (Sprintf (caseRoute A) [Arg.str id]) none = Except.ok req ∧
      c.DoCase [Call.newRequest "GET" (Sprintf (caseRoute A) [Arg.str id]) none] ctx req
        = (hc, r, none) ∧
      CasesServiceOp.Get c A ctx id = (⟨some hc, r, none⟩,
        [Call.newRequest "GET" (Sprintf (caseRoute A) [Arg.str id]) none, Call.do req])) := by
  cases hreq : c.NewRequest [] "GET" (Sprintf (caseRoute A) [Arg.str id]) none with
  | error e => exact Or.inl ⟨e, rfl, by simp [CasesServiceOp.Get, hreq]⟩
  | ok req =>
    rcases hdo : c.DoCase [Call.newRequest "GET" (Sprintf (caseRoute A) [Arg.str id]) none]
      ctx req with ⟨hc, r, err⟩
    cases err with
    | some e =>
      exact Or.inr (Or.inl ⟨req, hc, r, e, rfl, hdo, by simp [CasesServiceOp.Get, hreq, hdo]⟩)
    | none =>
      exact Or.inr (Or.inr ⟨req, hc, r, rfl, hdo, by simp [CasesServiceOp.Get, hreq, hdo]⟩)

/-- C9. Failure of `Get`. If building the request fails with `e`, `Get` returns
a nil record, a nil response and `e`, and no request is executed. If the request
is built and executing it or decoding the body fails with error `e` and
response `r`, `Get` returns a nil record, `r` and `e`. -/
theorem Get_failure (c : Client Ctx Req Resp Err) (A : String) (ctx : Ctx) (id : String) :
    (∀ e : Err,
      c.NewRequest [] "GET" (Sprintf (caseRoute A) [Arg.str id]) none = Except.error e →
      (CasesServiceOp.Get c A ctx id).1 = ⟨none, none, some e⟩ ∧
        executed (CasesServiceOp.Get c A ctx id).2 = 0) ∧
    (∀ (req : Req) (hc : Case) (r : Option Resp) (e : Err),
      c.NewRequest [] "GET" (Sprintf (caseRoute A) [Arg.str id]) none = Except.ok req →
      c.DoCase [Call.newRequest "GET" (Sprintf (caseRoute A) [Arg.str id]) none] ctx req
        = (hc, r, some e) →
      (CasesServiceOp.Get c A ctx id).1 = ⟨none, r, some e⟩) := by
  constructor
  · intro e hreq
    simp [CasesServiceOp.Get, hreq, executed]
  · intro req hc r e hreq hdo
    simp [CasesServiceOp.Get, hreq, hdo]

/-- C10. Single-fetch get. For every identifier, the empty one included, and a
route prefix without `%`: `Get` builds exactly one request, a GET with no body
for the prefix, then `/case/`, then the identifier as given; it executes at
most one request, and exactly that one when it was built; and when the
transport answers without error, `Get` returns the decoded record as the
transport gave it, with that response and a nil error. -/
theorem Get_single_fetch (c : Client Ctx Req Resp Err) (A : String) (ctx : Ctx) (id : String)
    (hA : '%' ∉ A.data) :
    builds (CasesServiceOp.Get c A ctx id).2 = [("GET", A ++ "/case/" ++ id, none)] ∧
    executed (CasesServiceOp.Get c A ctx id).2 ≤ 1 ∧
    (∀ req : Req, c.NewRequest [] "GET" (A ++ "/case/" ++ id) none = Except.ok req →
      (CasesServiceOp.Get c A ctx id).2
        = [Call.newRequest "GET" (A ++ "/case/" ++ id) none, Call.do req]) ∧
    (∀ (req : Req) (hc : Case) (resp : Option Resp),
      c.NewRequest [] "GET" (A ++ "/case/" ++ id) none = Except.ok req →
      c.DoCase [Call.newRequest "GET" (A ++ "/case/" ++ id) none] ctx req = (hc, resp, none) →
      (CasesServiceOp.Get c A ctx id).1 = ⟨some hc, resp, none⟩) := by
  have hp := Sprintf_caseRoute A id hA
  have hcases := Get_cases c A ctx id
  rw [hp] at hcases
  refine ⟨?_, ?_, ?_, ?_⟩
  · rcases hcases with ⟨e, -, h⟩ | ⟨req, hc, r, e, -, -, h⟩ | ⟨req, hc, r, -, -, h⟩ <;>
      simp [h, builds]
  · rcases hcases with ⟨e, -, h⟩ | ⟨req, hc, r, e, -, -, h⟩ | ⟨req, hc, r, -, -, h⟩ <;>
      simp [h, executed]
  · intro req hreq
    rcases hcases with ⟨e, h', h⟩ | ⟨req', hc, r, e, h', -, h⟩ | ⟨req', hc, r, h', -, h⟩
    · rw [hreq] at h'; cases h'
    · rw [hreq] at h'; cases h'; simp [h]
    · rw [hreq] at h'; cases h'; simp [h]
  · intro req hc resp hreq hdo
    rcases hcases with ⟨e, h', h⟩ | ⟨req', hc', r, e, h', hd', h⟩ | ⟨req', hc', r, h', hd', h⟩
    · rw [hreq] at h'; cases h'
    · rw [hreq] at h'; cases h'; rw [hdo] at hd'; cases hd'
    · rw [hreq] at h'; cases h'; rw [hdo] at hd'; cases hd'; simp [h]

end retrieval

/-! ## Worked instances -/

section instances

/-- C1, instance: page size 2 and pages `[[A,B],[C,D],[E]]` give `[A,B,C,D,E]`
in three iterations. -/
theorem List_returns_all_pages_witness :
    (∃ r log,
      CasesServiceOp.List
          (scripted 2 [[mkCase "A", mkCase "B"], [mkCase "C", mkCase "D"], [mkCase "E"]])
          "/api" () 3 = ⟨some r, log⟩ ∧
        r.err = none ∧
        r.val = ([[mkCase "A", mkCase "B"], [mkCase "C", mkCase "D"]] ++ [[mkCase "E"]]).flatten ∧
        r.val.length = (([[mkCase "A", mkCase "B"], [mkCase "C", mkCase "D"]]
          ++ [[mkCase "E"]]).map List.length).sum) ∧
    (CasesServiceOp.List
        (scripted 2 [[mkCase "A", mkCase "B"], [mkCase "C", mkCase "D"], [mkCase "E"]])
        "/api" () 3).result
      = some ⟨[mkCase "A", mkCase "B", mkCase "C", mkCase "D", mkCase "E"], none, none⟩ :=
  ⟨List_returns_all_pages
      (scripted 2 [[mkCase "A", mkCase "B"], [mkCase "C", mkCase "D"], [mkCase "E"]]) "/api" ()
      [[mkCase "A", mkCase "B"], [mkCase "C", mkCase "D"]] [mkCase "E"]
      (by decide) (by decide) (fun _ _ u _ => ⟨u, rfl⟩) (fun _ _ _ => ⟨some 200, rfl⟩)
      3 (by decide),
    by decide⟩

/-- C7, instance: page size 2 and pages `[[A,B],[C,D],[]]` take three requests
and give `[A,B,C,D]`; after two iterations `List` has not returned; an empty
first page takes one request and gives the empty collection with a nil error. -/
theorem List_stops_at_first_short_page_witness :
    (∃ r log,
      CasesServiceOp.List (scripted 2 [[mkCase "A", mkCase "B"], [mkCase "C", mkCase "D"]])
          "/api" () 3 = ⟨some r, log⟩ ∧
        r.err = none ∧
        r.val = ((List.range (2 + 1)).map
          (fun k => [[mkCase "A", mkCase "B"], [mkCase "C", mkCase "D"]].getD k [])).flatten ∧
        executed log = 2 + 1) ∧
    (CasesServiceOp.List (scripted 2 [[mkCase "A", mkCase "B"], [mkCase "C", mkCase "D"]])
        "/api" () 2).result = none ∧
    (CasesServiceOp.List (scripted 2 [[mkCase "A", mkCase "B"], [mkCase "C", mkCase "D"]])
        "/api" () 3).result
      = some ⟨[mkCase "A", mkCase "B", mkCase "C", mkCase "D"], none, none⟩ ∧
    CasesServiceOp.List (scripted 2 []) "/api" () 1
      = ⟨some ⟨[], none, none⟩,
          [Call.newRequest "GET" "/api/case?range=0-2" none, Call.do "/api/case?range=0-2"]⟩ :=
  ⟨(List_stops_at_first_short_page
      (scripted 2 [[mkCase "A", mkCase "B"], [mkCase "C", mkCase "D"]]) "/api" ()
      (fun k => [[mkCase "A", mkCase "B"], [mkCase "C", mkCase "D"]].getD k []) 2
      (fun _ _ u _ => ⟨u, rfl⟩) (fun _ _ => ⟨some 200, rfl⟩) (by decide) (by decide)).2 3
      (by decide),
    ((List_stops_at_first_short_page
      (scripted 2 [[mkCase "A", mkCase "B"], [mkCase "C", mkCase "D"]]) "/api" ()
      (fun k => [[mkCase "A", mkCase "B"], [mkCase "C", mkCase "D"]].getD k []) 2
      (fun _ _ u _ => ⟨u, rfl⟩) (fun _ _ => ⟨some 200, rfl⟩) (by decide) (by decide)).1 2
      (by decide)).1,
    by decide, by decide⟩

/-- The first request of `failingAt p pages 2 fb` is built. -/
theorem failingAt_two_builds_first (p : Int) (pages : List (List Case)) (fb : Bool) :
    ∀ (log : List (Call String)) (m u : String) (b : Option String), executed log < 1 →
      ∃ req, (failingAt p pages 2 fb).NewRequest log m u b = Except.ok req := by
  intro log m u b h
  have h0 : executed log = 0 := by omega
  exact ⟨u, by simp [failingAt, h0]⟩

/-- The first request of `failingAt 2 ([A, B] :: pages) 2 fb` is answered with
the full page `[A, B]`. -/
theorem failingAt_two_answers_first (pages : List (List Case)) (fb : Bool) :
    ∀ (log : List (Call String)) (req : String), executed log < 1 →
      ∃ hcs resp, (failingAt 2 ([mkCase "A", mkCase "B"] :: pages) 2 fb).DoCases log () req
        = (hcs, resp, none) ∧
        (failingAt 2 ([mkCase "A", mkCase "B"] :: pages) 2 fb).PageSize ≤ (hcs.length : Int) := by
  intro log req h
  have h0 : executed log = 0 := by omega
  exact ⟨[mkCase "A", mkCase "B"], some 200, by simp [failingAt, h0], by simp [failingAt]⟩

/-- C2, instance: page size 2, a full first page `[A,B]`, and a second request
that fails, once when executed and once when built: an error and no record. -/
theorem List_all_or_nothing_witness :
    (∃ r log,
      CasesServiceOp.List (failingAt 2 [[mkCase "A", mkCase "B"]] 2 false) "/api" () 2
        = ⟨some r, log⟩ ∧ r.err ≠ none ∧ r.val = []) ∧
    (∃ r log,
      CasesServiceOp.List (failingAt 2 [[mkCase "A", mkCase "B"]] 2 true) "/api" () 2
        = ⟨some r, log⟩ ∧ r.err ≠ none ∧ r.val = []) ∧
    (CasesServiceOp.List (failingAt 2 [[mkCase "A", mkCase "B"]] 2 false) "/api" () 2).result
      = some ⟨[], some 500, some "server error"⟩ :=
  ⟨List_all_or_nothing (failingAt 2 [[mkCase "A", mkCase "B"]] 2 false) "/api" () 1
      (failingAt_two_builds_first 2 _ false) (failingAt_two_answers_first [] false)
      (fun log m u b h => Or.inr ⟨u, by simp [failingAt], [], some 500, "server error", by
        simp [failingAt, executed_append, executed, h]⟩)
      2 (by decide),
    List_all_or_nothing (failingAt 2 [[mkCase "A", mkCase "B"]] 2 true) "/api" () 1
      (failingAt_two_builds_first 2 _ true) (failingAt_two_answers_first [] true)
      (fun log m u b h => Or.inl ⟨"parse error", by simp [failingAt, h]⟩)
      2 (by decide),
    by decide⟩

/-- C8, instance: page size 2, a full first page `[A,B]`; when the second
request fails in execution `List` returns that error and that response after two
executed requests, and when it cannot be built `List` returns that error and a
nil response after one executed request. -/
theorem List_error_propagation_witness :
    (∃ log,
      CasesServiceOp.List (failingAt 2 [[mkCase "A", mkCase "B"]] 2 false) "/api" () 2
        = ⟨some ⟨[], some 500, some "server error"⟩, log⟩ ∧ executed log = 1 + 1) ∧
    (∃ log,
      CasesServiceOp.List (failingAt 2 [[mkCase "A", mkCase "B"]] 2 true) "/api" () 2
        = ⟨some ⟨[], none, some "parse error"⟩, log⟩ ∧ executed log = 1) :=
  ⟨(List_error_propagation (failingAt 2 [[mkCase "A", mkCase "B"]] 2 false) "/api" () 1
      (failingAt_two_builds_first 2 _ false) (failingAt_two_answers_first [] false)
      2 (by decide)).1 "server error" (some 500)
      (fun log m u b h => ⟨u, by simp [failingAt]⟩)
      (fun log req h => ⟨[], by simp [failingAt, h]⟩),
    (List_error_propagation (failingAt 2 [[mkCase "A", mkCase "B"]] 2 true) "/api" () 1
      (failingAt_two_builds_first 2 _ true) (failingAt_two_answers_first [] true)
      2 (by decide)).2 "parse error"
      (fun log m u b h => by simp [failingAt, h])⟩

/-- C3, at page size 2 and pages `[[A,B],[C,D],[E]]`: the three requests are
GETs with no body for `range=0-2`, `range=2-2` and `range=4-2`; the second
number is the page size, not the start plus the page size. -/
theorem List_range_second_number_is_pageSize :
    builds (CasesServiceOp.List
        (scripted 2 [[mkCase "A", mkCase "B"], [mkCase "C", mkCase "D"], [mkCase "E"]])
        "/api" () 3).log
      = [("GET", "/api/case?range=0-2", none), ("GET", "/api/case?range=2-2", none),
          ("GET", "/api/case?range=4-2", none)] := by
  decide

/-- C4, at page size 2 and the single page `[A]`: the transport answers the
only request with a response (status 200) and no error, and `List` returns
`[A]` with a nil response. -/
theorem List_success_response_is_nil :
    (scripted 2 [[mkCase "A"]]).DoCases [Call.newRequest "GET" "/api/case?range=0-2" none] ()
        "/api/case?range=0-2" = ([mkCase "A"], some 200, none) ∧
    CasesServiceOp.List (scripted 2 [[mkCase "A"]]) "/api" () 1
      = ⟨some ⟨[mkCase "A"], none, none⟩,
          [Call.newRequest "GET" "/api/case?range=0-2" none, Call.do "/api/case?range=0-2"]⟩ := by
  decide

/-- C5, counterexample: with page size 0 and a transport that answers the
first request with `[A]` and every later one with an empty page, all without
error, `List` never returns, and after three iterations it has executed three
requests. -/
theorem List_nonpositive_pageSize_counterexample :
    (¬ ∃ fuel r, (CasesServiceOp.List (scripted 0 [[mkCase "A"]]) "/api" () fuel).result = some r) ∧
    executed (CasesServiceOp.List (scripted 0 [[mkCase "A"]]) "/api" () 3).log = 3 := by
  refine ⟨?_, by decide⟩
  rintro ⟨fuel, r, h⟩
  have hnone := (ListLoop_nonpositive (scripted 0 [[mkCase "A"]]) "/api" () (by decide)
    (fun _ _ u _ => ⟨u, rfl⟩) (fun _ _ => ⟨_, some 200, rfl⟩) fuel).1
  unfold CasesServiceOp.List at h
  rw [hnone] at h
  cases h

/-- C5 as amended, instance: page size 0, five iterations, five requests, no
return. -/
theorem List_nonpositive_pageSize_keeps_requesting_witness :
    (CasesServiceOp.List (scripted 0 [[mkCase "A"]]) "/api" () 5).result = none ∧
      executed (CasesServiceOp.List (scripted 0 [[mkCase "A"]]) "/api" () 5).log = 5 :=
  List_nonpositive_pageSize_keeps_requesting (scripted 0 [[mkCase "A"]]) "/api" () (by decide)
    (fun _ _ u _ => ⟨u, rfl⟩) (fun _ _ => ⟨_, some 200, rfl⟩) 5

set_option maxRecDepth 100000 in
/-- C6, counterexample: with page size `-2^62` and a transport that answers
every request with an empty page, the start offset of the fourth request is
`2^62`, not `(4 - 1) * -2^62`: the third addition leaves the range of `int`. -/
theorem List_offset_progression_counterexample :
    (urls (CasesServiceOp.List (scripted (-4611686018427387904) []) "/api" () 4).log)[4 - 1]?
      = some "/api/case?range=4611686018427387904--4611686018427387904" ∧
    pagedCases "/api" (((4 : Int) - 1) * (-4611686018427387904)) (-4611686018427387904)
      = "/api/case?range=-13835058055282163712--4611686018427387904" := by
  decide

/-- C6 as amended, instance: page size 2, third request, start offset 4. -/
theorem List_offset_progression_witness :
    "/api/case?range=4-2" = pagedCases "/api" ((((3 : Nat) : Int) - 1) * 2) 2 :=
  List_offset_progression
    (scripted 2 [[mkCase "A", mkCase "B"], [mkCase "C", mkCase "D"], [mkCase "E"]]) "/api" ()
    3 3 "/api/case?range=4-2" (by decide) (by decide) (by decide) (by decide)

/-- C9, instance: a request that cannot be built, and a request whose
execution fails with status 404. -/
theorem Get_failure_witness :
    ((CasesServiceOp.Get (getClient (Except.error "parse error") (mkCase "", none, none))
        "/api" () "42").1 = ⟨none, none, some "parse error"⟩ ∧
      executed (CasesServiceOp.Get (getClient (Except.error "parse error") (mkCase "", none, none))
        "/api" () "42").2 = 0) ∧
    (CasesServiceOp.Get (getClient (Except.ok "r") (mkCase "", some 404, some "not found"))
        "/api" () "42").1 = ⟨none, some 404, some "not found"⟩ :=
  ⟨(Get_failure (getClient (Except.error "parse error") (mkCase "", none, none))
      "/api" () "42").1 "parse error" rfl,
    (Get_failure (getClient (Except.ok "r") (mkCase "", some 404, some "not found"))
      "/api" () "42").2 "r" (mkCase "") (some 404) "not found" rfl rfl⟩

/-- C10, instance: identifier `42` under the prefix `/api`, answered with the
record of identifier `42`; and the empty identifier, forwarded as it is. -/
theorem Get_single_fetch_witness :
    CasesServiceOp.Get (getClient (Except.ok "r") (mkCase "42", some 200, none)) "/api" () "42"
      = (⟨some (mkCase "42"), some 200, none⟩,
          [Call.newRequest "GET" "/api/case/42" none, Call.do "r"]) ∧
    builds (CasesServiceOp.Get (getClient (Except.ok "r") (mkCase "42", some 200, none))
        "/api" () "").2 = [("GET", "/api" ++ "/case/" ++ "", none)] ∧
    (CasesServiceOp.Get (getClient (Except.ok "r") (mkCase "42", some 200, none))
        "/api" () "42").1 = ⟨some (mkCase "42"), some 200, none⟩ :=
  ⟨by decide,
    (Get_single_fetch (getClient (Except.ok "r") (mkCase "42", some 200, none)) "/api" () ""
      (by decide)).1,
    (Get_single_fetch (getClient (Except.ok "r") (mkCase "42", some 200, none)) "/api" () "42"
      (by decide)).2.2.2 "r" (mkCase "42") (some 200) rfl rfl⟩

/-- Instance of `List_request_shape`: page size 2, the second request. -/
theorem List_request_shape_witness :
    "GET" = "GET" ∧ (none : Option String) = none ∧
      "/api/case?range=2-2"
        = "/api" ++ "/case" ++ "?range=" ++ toString (wrapInt (((1 : Nat) : Int) * 2)) ++ "-"
          ++ toString (2 : Int) :=
  List_request_shape
    (scripted 2 [[mkCase "A", mkCase "B"], [mkCase "C", mkCase "D"], [mkCase "E"]]) "/api" ()
    3 1 "GET" "/api/case?range=2-2" none (by decide)

/-- Instance of `List_success_returns_nil_response`: a single short page
answered with status 200. -/
theorem List_success_returns_nil_response_witness :
    (⟨[mkCase "A"], none, none⟩ : Ret (List Case) Nat String).resp = none :=
  List_success_returns_nil_response (scripted 2 [[mkCase "A"]]) "/api" () 1
    ⟨[mkCase "A"], none, none⟩ (by decide) rfl

end instances

end thehive
